import Mathlib

/-!
Shallow embedding of the realtime session orchestration core of the
repository (src/App.tsx, src/types.ts): session lifecycle state machine,
teardown, audio playback scheduling, interruption handling, and the
per-turn transcript aggregator with its bounded log.

Conventions of the embedding:
- The playback clock and audio buffer durations are rationals.
- A decoded audio buffer is represented by its duration (the claims only
  concern scheduling arithmetic, not PCM contents); each scheduled buffer
  source node gets a fresh numeric handle recorded in `audioSources`.
- Imperative track/timer/source side effects are recorded in an explicit
  trace of `TeardownAction`s so that "performs no stream/timer operations"
  and "all tracks stopped" are observable.
- JS truthiness on the accumulator strings (`if (currentInputTranscription)`)
  becomes a non-emptiness test; `Array.prototype.slice(-10)` becomes
  `jsSliceLast 10`; `err.message || fallback` becomes `errorMessage`.
-/

/-- Session lifecycle status, from src/types.ts. -/
inductive Status
  | idle
  | connecting
  | connected
  | error
deriving DecidableEq, Repr

/-- SessionState record, from src/types.ts. -/
structure SessionState where
  isActive : Bool
  isMuted : Bool
  isScreenSharing : Bool
  status : Status
  error : Option String
deriving DecidableEq, Repr

/-- Speaker role of a transcript entry ("user" or "model"). -/
inductive Role
  | user
  | model
deriving DecidableEq, Repr

/-- TranscriptionItem record, from src/types.ts. -/
structure TranscriptionItem where
  type : Role
  text : String
  timestamp : Nat
deriving DecidableEq, Repr

/-- A local media stream, abstracted to its number of tracks. -/
structure MediaStream where
  tracks : Nat
deriving DecidableEq, Repr

/-- Observable side effects of teardown: stopping a media track, clearing
the frame interval timer, stopping a scheduled playback source. -/
inductive TeardownAction
  | stopTrack
  | clearInterval
  | stopSource
deriving DecidableEq, Repr

/-- The mutable state of the App component: the `session` React state, the
`transcriptions` React state, and the refs (nextStartTimeRef,
audioSourcesRef, screenStreamRef, micStreamRef, frameIntervalRef) together
with the per-turn accumulator variables of the onmessage closure. -/
structure AppState where
  session : SessionState
  transcriptions : List TranscriptionItem
  nextStartTime : ℚ
  audioSources : List Nat
  nextSourceId : Nat
  screenStream : Option MediaStream
  micStream : Option MediaStream
  frameInterval : Option Nat
  currentInputTranscription : String
  currentOutputTranscription : String
deriving DecidableEq, Repr

/-- Initial component state (src/App.tsx lines 13-39): idle session, empty
transcript log, zero playback cursor, no streams, no timer. -/
def initialAppState : AppState :=
  { session := { isActive := false, isMuted := false, isScreenSharing := false,
                 status := Status.idle, error := none }
    transcriptions := []
    nextStartTime := 0
    audioSources := []
    nextSourceId := 0
    screenStream := none
    micStream := none
    frameInterval := none
    currentInputTranscription := ""
    currentOutputTranscription := "" }

/-- Embedding of `stopAllStreams` (src/App.tsx lines 41-56): stop every
track of the screen and mic streams and null the refs, clear the frame
interval timer if set, stop every active playback source and clear the
set. Returns the new state and the trace of performed operations. -/
def stopAllStreams (s : AppState) : AppState × List TeardownAction :=
  let screenActs : List TeardownAction :=
    match s.screenStream with
    | some st => List.replicate st.tracks TeardownAction.stopTrack
    | none => []
  let micActs : List TeardownAction :=
    match s.micStream with
    | some st => List.replicate st.tracks TeardownAction.stopTrack
    | none => []
  let timerActs : List TeardownAction :=
    match s.frameInterval with
    | some _ => [TeardownAction.clearInterval]
    | none => []
  let sourceActs : List TeardownAction :=
    s.audioSources.map (fun _ => TeardownAction.stopSource)
  ({ s with screenStream := none, micStream := none, frameInterval := none,
            audioSources := [] },
   screenActs ++ micActs ++ timerActs ++ sourceActs)

/-- Embedding of `handleStopSession` (src/App.tsx lines 58-61): run
`stopAllStreams`, then set the session inactive, not screen sharing, and
status "idle" (other session fields, including `error`, are preserved by
the spread). -/
def handleStopSession (s : AppState) : AppState × List TeardownAction :=
  let r := stopAllStreams s
  let sess := { r.1.session with isActive := false
                                 isScreenSharing := false
                                 status := Status.idle }
  ({ r.1 with session := sess }, r.2)

/-- Embedding of the channel `onerror` callback (src/App.tsx lines 213-217):
set status "error" with the fixed message, then call `handleStopSession`. -/
def onerror (s : AppState) : AppState × List TeardownAction :=
  let sess := { s.session with status := Status.error
                               error := some "Connection lost or failed." }
  handleStopSession { s with session := sess }

/-- Embedding of the channel `onclose` callback (src/App.tsx lines 218-221):
it just calls `handleStopSession`. -/
def onclose (s : AppState) : AppState × List TeardownAction :=
  handleStopSession s

/-- Embedding of the screen video track `onended` handler installed at
src/App.tsx lines 100-103: it calls `handleStopSession`, exactly as the
Stop Sharing button does. -/
def onVideoTrackEnded (s : AppState) : AppState × List TeardownAction :=
  handleStopSession s

/-- Embedding of the channel `onopen` callback session update
(src/App.tsx line 123). -/
def onopen (s : AppState) : AppState :=
  let sess := { s.session with status := Status.connected
                               isActive := true
                               isScreenSharing := true }
  { s with session := sess }

/-- Inbound server message, abstracting `LiveServerMessage` to the fields
the onmessage handler reads: a decoded audio buffer duration (if
`modelTurn.parts[0].inlineData.data` is present), the `interrupted` flag,
the input/output transcription delta texts, and the `turnComplete` flag.
All fields may be present at once; the handler processes them in source
order. -/
structure LiveServerMessage where
  audioDuration : Option ℚ
  interrupted : Bool
  inputTranscriptionText : Option String
  outputTranscriptionText : Option String
  turnComplete : Bool
deriving DecidableEq, Repr

/-- JavaScript `l.slice(-k)`: the last `min k l.length` elements of `l`. -/
def jsSliceLast (k : Nat) (l : List α) : List α :=
  l.drop (l.length - k)

/-- One transcript commit `prev => [...prev.slice(-10), item]`
(src/App.tsx lines 204 and 207). -/
def pushTranscription (l : List TranscriptionItem) (item : TranscriptionItem) :
    List TranscriptionItem :=
  jsSliceLast 10 l ++ [item]

/-- Embedding of the `onmessage` callback (src/App.tsx lines 167-212).
`now` is `outputAudioCtx.currentTime` at handling time and `ts` is
`Date.now()`. In source order: (1) if audio data is present, schedule it at
`max nextStartTime now`, advance the cursor by the buffer duration and
track the new source; (2) if `interrupted`, stop and clear all sources and
reset the cursor to 0; (3) append transcription deltas to the per-turn
accumulators; (4) on `turnComplete`, commit each non-empty accumulator as
a transcript item and clear both accumulators. -/
def onmessage (now : ℚ) (ts : Nat) (m : LiveServerMessage) (s : AppState) : AppState :=
  let s1 :=
    match m.audioDuration with
    | none => s
    | some d =>
        let start := max s.nextStartTime now
        { s with nextStartTime := start + d
                 audioSources := s.audioSources ++ [s.nextSourceId]
                 nextSourceId := s.nextSourceId + 1 }
  let s2 :=
    if m.interrupted then
      { s1 with audioSources := [], nextStartTime := 0 }
    else s1
  let s3 :=
    match m.inputTranscriptionText with
    | none => s2
    | some t => { s2 with currentInputTranscription := s2.currentInputTranscription ++ t }
  let s4 :=
    match m.outputTranscriptionText with
    | none => s3
    | some t => { s3 with currentOutputTranscription := s3.currentOutputTranscription ++ t }
  if m.turnComplete then
    let l1 :=
      if s4.currentInputTranscription ≠ "" then
        pushTranscription s4.transcriptions
          ⟨Role.user, s4.currentInputTranscription, ts⟩
      else s4.transcriptions
    let l2 :=
      if s4.currentOutputTranscription ≠ "" then
        pushTranscription l1 ⟨Role.model, s4.currentOutputTranscription, ts⟩
      else l1
    { s4 with transcriptions := l2, currentInputTranscription := "",
              currentOutputTranscription := "" }
  else s4

/-- The start time `source.start(nextStartTimeRef.current)` would use if an
audio buffer arrived now (src/App.tsx lines 171 and 181): the cursor after
the clamp `nextStartTime := max nextStartTime currentTime`. -/
def scheduledStart (now : ℚ) (s : AppState) : ℚ :=
  max s.nextStartTime now

/-- A server message carrying only an audio buffer of duration `d`. -/
def audioMsg (d : ℚ) : LiveServerMessage :=
  { audioDuration := some d, interrupted := false, inputTranscriptionText := none,
    outputTranscriptionText := none, turnComplete := false }

/-- A server message carrying only the `turnComplete` flag. -/
def turnCompleteMsg : LiveServerMessage :=
  { audioDuration := none, interrupted := false, inputTranscriptionText := none,
    outputTranscriptionText := none, turnComplete := true }

/-- A server message carrying only an input transcription delta. -/
def inputDeltaMsg (t : String) : LiveServerMessage :=
  { audioDuration := none, interrupted := false, inputTranscriptionText := some t,
    outputTranscriptionText := none, turnComplete := false }

/-- A server message carrying an input transcription delta together with
the `turnComplete` flag: one completed turn contributing one transcript
item. -/
def userTurnMsg (t : String) : LiveServerMessage :=
  { audioDuration := none, interrupted := false, inputTranscriptionText := some t,
    outputTranscriptionText := none, turnComplete := true }

/-- A server message carrying only the `interrupted` flag. -/
def interruptedMsg : LiveServerMessage :=
  { audioDuration := none, interrupted := true, inputTranscriptionText := none,
    outputTranscriptionText := none, turnComplete := false }

/-- The sequence of playback start times produced by feeding a list of
audio-only messages, each given as (clock time at arrival, buffer
duration), through the onmessage handler. -/
def playStarts (s : AppState) : List (ℚ × ℚ) → List ℚ
  | [] => []
  | (now, d) :: rest =>
      scheduledStart now s :: playStarts (onmessage now 0 (audioMsg d) s) rest

/-- The items the Transcript Aggregator commits at a `turnComplete`: a user
item if the input accumulator is non-empty, then a model item if the output
accumulator is non-empty (spec section 4.6 wording, for comparison with the
code path in `onmessage`). -/
def committedItems (s : AppState) (ts : Nat) : List TranscriptionItem :=
  (if s.currentInputTranscription = "" then []
   else [⟨Role.user, s.currentInputTranscription, ts⟩]) ++
  (if s.currentOutputTranscription = "" then []
   else [⟨Role.model, s.currentOutputTranscription, ts⟩])

/-- Transcript item produced by one completed user turn with text `p.1`
committed at timestamp `p.2`. -/
def mkTurnItem (p : String × Nat) : TranscriptionItem :=
  ⟨Role.user, p.1, p.2⟩

/-- Run a sequence of completed user turns (each a pair of delta text and
commit timestamp) through the onmessage handler. -/
def runTurns (s : AppState) : List (String × Nat) → AppState
  | [] => s
  | (t, ts) :: rest => runTurns (onmessage 0 ts (userTurnMsg t) s) rest

/-- Outcome of an asynchronous media acquisition call: a stream, or a DOM
exception with a `name` and a `message`. -/
inductive MediaResult
  | ok (stream : MediaStream)
  | err (name : String) (message : String)
deriving DecidableEq, Repr

/-- JavaScript `s.includes(pat)` for the fixed pattern test at
src/App.tsx line 89. -/
def jsIncludes (s pat : String) : Bool :=
  (s.splitOn pat).length != 1

/-- The specific screen-sharing blocked message thrown at
src/App.tsx line 90. -/
def blockedMessage : String :=
  "Screen sharing is blocked by your browser\x27s permissions policy. Try opening this app in a full window (pop-out) or check your browser settings to allow display capture."

/-- The fallback error text of the catch block at src/App.tsx line 229. -/
def fallbackStartError : String :=
  "Permission denied or browser incompatible."

/-- JavaScript `err.message || fallback` (src/App.tsx line 229): the empty
string is falsy. -/
def errorMessage (msg : String) : String :=
  if msg = "" then fallbackStartError else msg

/-- Embedding of `startLiveSession` (src/App.tsx lines 63-232) up to the
channel connect, with the outcomes of `getUserMedia` and `getDisplayMedia`
supplied as parameters. Sets status "connecting"; on mic failure the outer
catch sets status "error" with the message and runs `stopAllStreams`; on
screen failure the inner catch rethrows the specific blocked message for
`NotAllowedError` or a permissions-policy message, and the outer catch then
sets status "error" and runs `stopAllStreams`; on success both stream refs
are set and the state awaits the channel callbacks. -/
def startLiveSession (micRes screenRes : MediaResult) (s : AppState) :
    AppState × List TeardownAction :=
  let sess0 := { s.session with status := Status.connecting, error := none }
  let s0 := { s with session := sess0 }
  match micRes with
  | MediaResult.err _ msg =>
      let sessE := { s0.session with status := Status.error
                                     error := some (errorMessage msg) }
      stopAllStreams { s0 with session := sessE }
  | MediaResult.ok mic =>
      let s1 := { s0 with micStream := some mic }
      match screenRes with
      | MediaResult.err name msg =>
          let thrown :=
            if name = "NotAllowedError" || jsIncludes msg "permissions policy" then
              blockedMessage
            else msg
          let sessE := { s1.session with status := Status.error
                                         error := some (errorMessage thrown) }
          stopAllStreams { s1 with session := sessE }
      | MediaResult.ok scr =>
          ({ s1 with screenStream := some scr }, [])

/-- A fully quiescent idle state: no streams, no frame timer, no active
playback sources, session inactive with status "idle". -/
def IdleResting (s : AppState) : Prop :=
  s.screenStream = none ∧ s.micStream = none ∧ s.frameInterval = none ∧
  s.audioSources = [] ∧ s.session.isActive = false ∧
  s.session.isScreenSharing = false ∧ s.session.status = Status.idle

/-- Number of tracks held by an optional stream ref. -/
def streamTracks : Option MediaStream → Nat
  | none => 0
  | some m => m.tracks

/-- A concrete connected mid-session state used as an evaluation point. -/
def connectedState : AppState :=
  { session := { isActive := true, isMuted := false, isScreenSharing := true,
                 status := Status.connected, error := none }
    transcriptions := []
    nextStartTime := 2
    audioSources := [7]
    nextSourceId := 8
    screenStream := some ⟨1⟩
    micStream := some ⟨2⟩
    frameInterval := some 3
    currentInputTranscription := ""
    currentOutputTranscription := "" }

/-- A mid-session state whose per-turn accumulators are both non-empty. -/
def busyState : AppState :=
  { connectedState with currentInputTranscription := "hi"
                        currentOutputTranscription := "yo" }

/-- A mid-session state with both accumulators non-empty and the transcript
log at its capacity of 11 items. -/
def fullLogState : AppState :=
  { busyState with transcriptions := (List.range 11).map (fun i => ⟨Role.model, "old", i⟩) }

lemma string_empty_append (t : String) : "" ++ t = t := by
  cases t
  rfl

lemma jsSliceLast_of_le {l : List α} {k : Nat} (h : l.length ≤ k) :
    jsSliceLast k l = l := by
  simp [jsSliceLast, Nat.sub_eq_zero_of_le h]

lemma length_jsSliceLast (k : Nat) (l : List α) :
    (jsSliceLast k l).length = min k l.length := by
  simp only [jsSliceLast, List.length_drop]
  omega

lemma pushTranscription_window (l : List TranscriptionItem) (x : TranscriptionItem) :
    pushTranscription l x = jsSliceLast 11 (l ++ [x]) := by
  have h1 : (l ++ [x]).length - 11 = l.length - 10 := by
    simp only [List.length_append, List.length_singleton]
    omega
  simp only [pushTranscription, jsSliceLast, h1,
    List.drop_append_of_le_length (Nat.sub_le l.length 10)]

lemma jsSliceLast_absorb (k : Nat) (a b : List α) :
    jsSliceLast k (jsSliceLast k a ++ b) = jsSliceLast k (a ++ b) := by
  have h : a.drop (a.length - k) ++ b = (a ++ b).drop (a.length - k) :=
    (List.drop_append_of_le_length (Nat.sub_le _ _)).symm
  unfold jsSliceLast
  rw [h, List.drop_drop]
  congr 1
  simp only [List.length_drop, List.length_append]
  omega

lemma onmessage_audio_cursor (now d : ℚ) (ts : Nat) (s : AppState) :
    (onmessage now ts (audioMsg d) s).nextStartTime = max s.nextStartTime now + d := by
  simp [onmessage, audioMsg]

lemma onmessage_userTurn (t : String) (ts : Nat) (s : AppState)
    (hin : s.currentInputTranscription = "")
    (hout : s.currentOutputTranscription = "")
    (ht : t ≠ "") :
    onmessage 0 ts (userTurnMsg t) s
      = { s with transcriptions := pushTranscription s.transcriptions ⟨Role.user, t, ts⟩
                 currentInputTranscription := ""
                 currentOutputTranscription := "" } := by
  simp [onmessage, userTurnMsg, hin, hout, string_empty_append, ht]

lemma length_pushTranscription_le (l : List TranscriptionItem) (x : TranscriptionItem) :
    (pushTranscription l x).length ≤ 11 := by
  simp only [pushTranscription, jsSliceLast, List.length_append, List.length_drop,
    List.length_singleton]
  omega

lemma runTurns_spec (pairs : List (String × Nat)) (s : AppState)
    (hin : s.currentInputTranscription = "")
    (hout : s.currentOutputTranscription = "")
    (hlen : s.transcriptions.length ≤ 11)
    (h : ∀ p ∈ pairs, p.1 ≠ "") :
    (runTurns s pairs).transcriptions
      = jsSliceLast 11 (s.transcriptions ++ pairs.map mkTurnItem) := by
  induction pairs generalizing s with
  | nil => simp [runTurns, jsSliceLast_of_le hlen]
  | cons p rest ih =>
      obtain ⟨t, ts⟩ := p
      have ht : t ≠ "" := h _ (List.mem_cons_self _ _)
      have hrest : ∀ q ∈ rest, q.1 ≠ "" := fun q hq => h q (List.mem_cons_of_mem _ hq)
      rw [runTurns, onmessage_userTurn t ts s hin hout ht]
      rw [ih _ rfl rfl (length_pushTranscription_le _ _) hrest]
      simp only [pushTranscription_window, jsSliceLast_absorb, List.map_cons, mkTurnItem]
      rw [List.append_assoc]
      rfl

lemma playStarts_chain (events : List (ℚ × ℚ)) (s : AppState)
    (h : ∀ e ∈ events, 0 ≤ e.2) :
    List.Chain' (· ≤ ·) (playStarts s events) := by
  induction events generalizing s with
  | nil => simp [playStarts]
  | cons e rest ih =>
      obtain ⟨now, d⟩ := e
      have hd : (0 : ℚ) ≤ d := h _ (List.mem_cons_self _ _)
      have hrest : ∀ x ∈ rest, (0 : ℚ) ≤ x.2 := fun x hx => h x (List.mem_cons_of_mem _ hx)
      cases rest with
      | nil => simp [playStarts]
      | cons e2 r2 =>
          obtain ⟨n2, d2⟩ := e2
          rw [playStarts, playStarts, List.chain'_cons]
          constructor
          · have h1 : scheduledStart now s ≤ scheduledStart now s + d :=
              le_add_of_nonneg_right hd
            have h2 : scheduledStart now s + d
                ≤ (onmessage now 0 (audioMsg d) s).nextStartTime := by
              rw [onmessage_audio_cursor]
              exact le_refl _
            exact le_trans (le_trans h1 h2)
              (le_max_left (onmessage now 0 (audioMsg d) s).nextStartTime n2)
          · rw [← playStarts]
            exact ih _ hrest

lemma handleStopSession_of_idle (s : AppState) (h : IdleResting s) :
    handleStopSession s = (s, []) := by
  obtain ⟨h1, h2, h3, h4, h5, h6, h7⟩ := h
  obtain ⟨sess, tr, nst, src, nid, scr, mic, fi, cin, cout⟩ := s
  obtain ⟨ia, im, iss, st, er⟩ := sess
  simp only at h1 h2 h3 h4 h5 h6 h7
  subst h1 h2 h3 h4 h5 h6 h7
  simp [handleStopSession, stopAllStreams]

lemma idle_after_stop (t : AppState) : IdleResting (handleStopSession t).1 := by
  simp [IdleResting, handleStopSession, stopAllStreams]

lemma blockedMessage_ne_empty : blockedMessage ≠ "" := by decide

/-- Claim C1, counterexample: on a connected session, the channel onError
handler ends with session status "idle", because `handleStopSession` (called
for teardown) overwrites the "error" status it set first; the claim states
the status after onError handling is "error". -/
theorem onerror_status_counterexample :
    (onerror connectedState).1.session.status = Status.idle ∧
    Status.idle ≠ Status.error := by
  exact ⟨rfl, by decide⟩

/-- Claim C1, amended: the onError handler populates the error field with
the fixed connection-lost message and performs full teardown (streams
nulled, frame timer cleared, playback sources cleared), but the teardown
resets the session status to "idle"; the "error" status is only transient
inside the handler, and the machine is restartable from the resulting
idle state. -/
theorem onerror_teardown (s : AppState) :
    (onerror s).1.session.status = Status.idle ∧
    (onerror s).1.session.error = some "Connection lost or failed." ∧
    (onerror s).1.screenStream = none ∧
    (onerror s).1.micStream = none ∧
    (onerror s).1.frameInterval = none ∧
    (onerror s).1.audioSources = [] :=
  ⟨rfl, rfl, rfl, rfl, rfl, rfl⟩

/-- Claim C2, counterexample: when microphone acquisition fails at session
start, the catch block sets the session status to "error"; it does not
return the status to "idle" as the claim states. -/
theorem start_failure_status_counterexample :
    (startLiveSession (MediaResult.err "NotAllowedError" "Permission denied")
        (MediaResult.ok ⟨1⟩) initialAppState).1.session.status = Status.error ∧
    Status.error ≠ Status.idle := by
  exact ⟨rfl, by decide⟩

/-- Claim C2, amended: every failure during media acquisition at start is
caught; the session error field is populated (for a mic failure, the
exception message; for a screen NotAllowedError, the specific
blocked-by-policy message), any already-acquired stream is released by
`stopAllStreams`, and the session status becomes "error", not "idle". -/
theorem start_failure_amended (s : AppState) (name msg : String) (m : MediaStream)
    (scr : MediaResult) (hidle : IdleResting s) (hmsg : msg ≠ "") :
    ((startLiveSession (MediaResult.err name msg) scr s).1.session.status = Status.error ∧
     (startLiveSession (MediaResult.err name msg) scr s).1.session.error = some msg ∧
     (startLiveSession (MediaResult.err name msg) scr s).1.micStream = none ∧
     (startLiveSession (MediaResult.err name msg) scr s).1.screenStream = none ∧
     (startLiveSession (MediaResult.err name msg) scr s).2 = []) ∧
    ((startLiveSession (MediaResult.ok m)
        (MediaResult.err "NotAllowedError" msg) s).1.session.status = Status.error ∧
     (startLiveSession (MediaResult.ok m)
        (MediaResult.err "NotAllowedError" msg) s).1.session.error = some blockedMessage ∧
     (startLiveSession (MediaResult.ok m)
        (MediaResult.err "NotAllowedError" msg) s).1.micStream = none ∧
     (startLiveSession (MediaResult.ok m)
        (MediaResult.err "NotAllowedError" msg) s).1.screenStream = none ∧
     (startLiveSession (MediaResult.ok m)
        (MediaResult.err "NotAllowedError" msg) s).2
       = List.replicate m.tracks TeardownAction.stopTrack) := by
  obtain ⟨h1, h2, h3, h4, h5, h6, h7⟩ := hidle
  constructor
  · refine ⟨rfl, ?_, rfl, rfl, ?_⟩
    · simp [startLiveSession, stopAllStreams, errorMessage, hmsg]
    · simp [startLiveSession, stopAllStreams, h1, h2, h3, h4]
  · refine ⟨rfl, ?_, rfl, rfl, ?_⟩
    · simp [startLiveSession, stopAllStreams, errorMessage, blockedMessage_ne_empty]
    · simp [startLiveSession, stopAllStreams, h1, h3, h4]

/-- Claim C2, witness: mic denial from the initial idle state ends in
status "error" with the message surfaced. -/
theorem start_failure_amended_witness :
    (startLiveSession (MediaResult.err "NotAllowedError" "Permission denied")
        (MediaResult.ok ⟨1⟩) initialAppState).1.session.error = some "Permission denied" :=
  (start_failure_amended initialAppState "NotAllowedError" "Permission denied" ⟨2⟩
    (MediaResult.ok ⟨1⟩) ⟨rfl, rfl, rfl, rfl, rfl, rfl, rfl⟩ (by decide)).1.2.1

/-- Claim C3, counterexample: starting from cursor 0, a first audio buffer
arriving at clock 0 with duration 1 is scheduled at 0 and leaves the cursor
at 1; a second buffer arriving at clock 5 is scheduled at max(1, 5) = 5,
which is not the prior cursor value 1 (prior start 0 plus prior duration
1), refuting the claimed equality of each start with the prior cursor. -/
theorem playback_start_counterexample :
    playStarts initialAppState [(0, 1), (5, 1)] = [0, 5] ∧
    (onmessage 0 0 (audioMsg 1) initialAppState).nextStartTime = 1 ∧
    (5 : ℚ) ≠ 1 := by
  have hcur : (onmessage 0 0 (audioMsg 1) initialAppState).nextStartTime = 1 := by
    rw [onmessage_audio_cursor, show initialAppState.nextStartTime = 0 from rfl, max_self]
    norm_num
  have h0 : scheduledStart 0 initialAppState = 0 := by
    simp only [scheduledStart]
    rw [show initialAppState.nextStartTime = 0 from rfl, max_self]
  have h5 : scheduledStart 5 (onmessage 0 0 (audioMsg 1) initialAppState) = 5 := by
    simp only [scheduledStart]
    rw [hcur]
    exact max_eq_right (by norm_num)
  refine ⟨?_, hcur, by norm_num⟩
  simp only [playStarts]
  rw [h0, h5]

/-- Claim C3, amended: each audioDelta is scheduled at
max(PlaybackCursor, currentPlaybackClockTime) and the cursor then advances
to that start plus the buffer duration; the scheduled start is at least the
prior cursor value, equal to it exactly when the clock has not passed the
cursor, and with non-negative durations successive scheduled start times
are non-decreasing. -/
theorem playback_scheduling (now d : ℚ) (ts : Nat) (s : AppState)
    (events : List (ℚ × ℚ)) (hd : ∀ e ∈ events, 0 ≤ e.2) :
    scheduledStart now s = max s.nextStartTime now ∧
    (onmessage now ts (audioMsg d) s).nextStartTime = scheduledStart now s + d ∧
    s.nextStartTime ≤ scheduledStart now s ∧
    (now ≤ s.nextStartTime → scheduledStart now s = s.nextStartTime) ∧
    List.Chain' (· ≤ ·) (playStarts s events) := by
  refine ⟨rfl, ?_, le_max_left _ _, fun h => max_eq_left h,
    playStarts_chain events s hd⟩
  rw [onmessage_audio_cursor]
  rfl

/-- Claim C3, witness: the amended scheduling facts evaluated on a concrete
two-buffer trace with a clock jump. -/
theorem playback_scheduling_witness :
    (onmessage 0 0 (audioMsg 1) initialAppState).nextStartTime
      = scheduledStart 0 initialAppState + 1 ∧
    List.Chain' (· ≤ ·) (playStarts initialAppState [(0, 1), (5, 1)]) :=
  ⟨(playback_scheduling 0 1 0 initialAppState [(0, 1), (5, 1)]
      (by norm_num [List.forall_mem_cons])).2.1,
   (playback_scheduling 0 1 0 initialAppState [(0, 1), (5, 1)]
      (by norm_num [List.forall_mem_cons])).2.2.2.2⟩

/-- Claim C4: after any message carrying the interrupted flag is processed,
ActiveSources is empty and the playback cursor is 0, so the next buffer
would be scheduled at max(0, clock) = clock, at (not before) the current
playback clock time rather than at the pre-interruption cursor. -/
theorem interruption_resets (now now2 : ℚ) (ts : Nat) (m : LiveServerMessage)
    (s : AppState) (hm : m.interrupted = true) (h2 : 0 ≤ now2) :
    (onmessage now ts m s).audioSources = [] ∧
    (onmessage now ts m s).nextStartTime = 0 ∧
    scheduledStart now2 (onmessage now ts m s) = now2 := by
  obtain ⟨ad, intr, itx, otx, tc⟩ := m
  simp only at hm
  subst hm
  cases ad <;> cases itx <;> cases otx <;> cases tc <;>
    simp [onmessage, scheduledStart, max_eq_right h2]

/-- Claim C4, witness: an interruption on a concrete mid-playback state. -/
theorem interruption_resets_witness :
    (onmessage 3 0 interruptedMsg connectedState).audioSources = [] ∧
    (onmessage 3 0 interruptedMsg connectedState).nextStartTime = 0 ∧
    scheduledStart 4 (onmessage 3 0 interruptedMsg connectedState) = 4 :=
  interruption_resets 3 4 0 interruptedMsg connectedState rfl (by norm_num)

/-- Claim C5: at a turnComplete, each role whose per-turn accumulator is
non-empty contributes exactly one TranscriptItem with that role, the
accumulated text and the commit timestamp, appended through the bounded
11-item window; roles with empty accumulators contribute nothing; both
accumulators end empty regardless. In particular the scenario
inputTranscriptDelta "hel", inputTranscriptDelta "lo", turnComplete yields
exactly one new item with role user and text "hello". -/
theorem turnComplete_commits (now : ℚ) (ts : Nat) (s : AppState)
    (hlen : s.transcriptions.length ≤ 11) :
    (onmessage now ts turnCompleteMsg s).currentInputTranscription = "" ∧
    (onmessage now ts turnCompleteMsg s).currentOutputTranscription = "" ∧
    (onmessage now ts turnCompleteMsg s).transcriptions
      = jsSliceLast 11 (s.transcriptions ++ committedItems s ts) ∧
    (onmessage 0 42 turnCompleteMsg
        (onmessage 0 0 (inputDeltaMsg "lo")
          (onmessage 0 0 (inputDeltaMsg "hel") initialAppState))).transcriptions
      = [⟨Role.user, "hello", 42⟩] := by
  refine ⟨rfl, rfl, ?_, ?_⟩
  · by_cases hi : s.currentInputTranscription = "" <;>
    by_cases ho : s.currentOutputTranscription = "" <;>
      simp [onmessage, turnCompleteMsg, committedItems, hi, ho,
        pushTranscription_window, jsSliceLast_absorb, jsSliceLast_of_le hlen]
  · rfl

/-- Claim C5, witness: the commit equation evaluated on a concrete state
with both accumulators non-empty. -/
theorem turnComplete_commits_witness :
    (onmessage 0 7 turnCompleteMsg busyState).transcriptions
      = jsSliceLast 11 (busyState.transcriptions ++ committedItems busyState 7) :=
  (turnComplete_commits 0 7 busyState (by decide)).2.2.1

/-- Claim C6: after N completed turns, each committing exactly one item
onto the initially empty log, the log is exactly the last min(N, 11) items
in commit order — length min(N, 11), most recent retained, oldest evicted
first. -/
theorem bounded_transcript_log (pairs : List (String × Nat))
    (h : ∀ p ∈ pairs, p.1 ≠ "") :
    (runTurns initialAppState pairs).transcriptions
      = jsSliceLast 11 (pairs.map mkTurnItem) ∧
    (runTurns initialAppState pairs).transcriptions.length = min pairs.length 11 := by
  have e := runTurns_spec pairs initialAppState rfl rfl (by decide) h
  rw [show initialAppState.transcriptions = [] from rfl, List.nil_append] at e
  refine ⟨e, ?_⟩
  rw [e, length_jsSliceLast, List.length_map, Nat.min_comm]

/-- Claim C6, witness: thirteen committed turns leave a log of length
min(13, 11) = 11. -/
theorem bounded_transcript_log_witness :
    (runTurns initialAppState
        [("a", 1), ("b", 2), ("c", 3), ("d", 4), ("e", 5), ("f", 6), ("g", 7),
         ("h", 8), ("i", 9), ("j", 10), ("k", 11), ("l", 12), ("m", 13)]).transcriptions.length
      = min 13 11 :=
  (bounded_transcript_log
    [("a", 1), ("b", 2), ("c", 3), ("d", 4), ("e", 5), ("f", 6), ("g", 7),
     ("h", 8), ("i", 9), ("j", 10), ("k", 11), ("l", 12), ("m", 13)]
    (by decide)).2

/-- Claim C7: across any inbound message that does not carry the
interrupted flag, the playback cursor never decreases (given non-negative
buffer durations); a message carrying the interrupted flag performs the
one explicit reset to 0; and session teardown leaves the cursor untouched. -/
theorem playback_cursor_monotone (now : ℚ) (ts : Nat) (m : LiveServerMessage)
    (s : AppState) (hd : ∀ d ∈ m.audioDuration, (0 : ℚ) ≤ d) :
    (m.interrupted = false →
      s.nextStartTime ≤ (onmessage now ts m s).nextStartTime) ∧
    (m.interrupted = true → (onmessage now ts m s).nextStartTime = 0) ∧
    (handleStopSession s).1.nextStartTime = s.nextStartTime := by
  obtain ⟨ad, intr, itx, otx, tc⟩ := m
  refine ⟨?_, ?_, rfl⟩
  · intro hintr
    simp only at hintr
    subst hintr
    cases ad with
    | none => cases itx <;> cases otx <;> cases tc <;> simp [onmessage]
    | some d =>
        have hd0 : (0 : ℚ) ≤ d := hd d rfl
        have key : s.nextStartTime ≤ max s.nextStartTime now + d :=
          le_trans (le_max_left _ _) (le_add_of_nonneg_right hd0)
        cases itx <;> cases otx <;> cases tc <;> simpa [onmessage] using key
  · intro hintr
    simp only at hintr
    subst hintr
    cases ad <;> cases itx <;> cases otx <;> cases tc <;> simp [onmessage]

/-- Claim C7, witness: the cursor does not decrease across a concrete
audio message on a mid-session state. -/
theorem playback_cursor_monotone_witness :
    connectedState.nextStartTime
      ≤ (onmessage 3 0 (audioMsg 2) connectedState).nextStartTime :=
  (playback_cursor_monotone 3 0 (audioMsg 2) connectedState
    (by intro d hmem; injection hmem with h; rw [← h]; norm_num)).1 rfl

/-- Claim C8: invoking stop on an already fully idle session performs no
stream, timer or source operation (empty teardown trace) and leaves the
state unchanged; and stop followed by stop equals a single stop, the second
invocation being a no-op. -/
theorem stop_when_idle_noop (s t : AppState) (h : IdleResting s) :
    handleStopSession s = (s, []) ∧
    handleStopSession (handleStopSession t).1 = ((handleStopSession t).1, []) :=
  ⟨handleStopSession_of_idle s h, handleStopSession_of_idle _ (idle_after_stop t)⟩

/-- Claim C8, witness: stopping the initial idle state changes nothing, and
a second stop after stopping a connected state is a no-op. -/
theorem stop_when_idle_noop_witness :
    handleStopSession initialAppState = (initialAppState, []) ∧
    handleStopSession (handleStopSession connectedState).1
      = ((handleStopSession connectedState).1, []) :=
  stop_when_idle_noop initialAppState connectedState ⟨rfl, rfl, rfl, rfl, rfl, rfl, rfl⟩

/-- Claim C9: external termination of the screen video track runs exactly
the same handler as a user-initiated stop; on a connected session it sets
the status to "idle", nulls both streams, clears the frame timer, clears
ActiveSources, and the teardown trace stops every track of both streams,
clears the timer when one was set, and stops every active source. -/
theorem video_track_end_is_stop (s : AppState)
    (_hconn : s.session.status = Status.connected) :
    onVideoTrackEnded s = handleStopSession s ∧
    (onVideoTrackEnded s).1.session.status = Status.idle ∧
    (onVideoTrackEnded s).1.screenStream = none ∧
    (onVideoTrackEnded s).1.micStream = none ∧
    (onVideoTrackEnded s).1.frameInterval = none ∧
    (onVideoTrackEnded s).1.audioSources = [] ∧
    (onVideoTrackEnded s).2.count TeardownAction.stopTrack
      = streamTracks s.screenStream + streamTracks s.micStream ∧
    (onVideoTrackEnded s).2.count TeardownAction.clearInterval
      = (if s.frameInterval.isSome then 1 else 0) ∧
    (onVideoTrackEnded s).2.count TeardownAction.stopSource
      = s.audioSources.length := by
  refine ⟨rfl, rfl, rfl, rfl, rfl, rfl, ?_, ?_, ?_⟩ <;>
  · cases hscr : s.screenStream <;> cases hmic : s.micStream <;>
      cases hfi : s.frameInterval <;>
      simp [onVideoTrackEnded, handleStopSession, stopAllStreams, streamTracks,
        hscr, hmic, hfi, List.count_append, List.count_replicate, List.count_cons,
        List.map_const']

/-- Claim C9, witness: the external-termination handler evaluated on a
concrete connected state stops all three tracks. -/
theorem video_track_end_is_stop_witness :
    (onVideoTrackEnded connectedState).2.count TeardownAction.stopTrack
      = streamTracks connectedState.screenStream
          + streamTracks connectedState.micStream :=
  (video_track_end_is_stop connectedState rfl).2.2.2.2.2.2.1

/-- Claim C10: when both per-turn accumulators are non-empty at a single
turnComplete, exactly two items are appended through the bounded window,
the user item strictly before the model item; when the log is at its
capacity of 11, that one turnComplete evicts the two oldest entries. -/
theorem both_roles_turnComplete (now : ℚ) (ts : Nat) (s : AppState)
    (hin : s.currentInputTranscription ≠ "")
    (hout : s.currentOutputTranscription ≠ "") :
    (onmessage now ts turnCompleteMsg s).transcriptions
      = jsSliceLast 11 (s.transcriptions
          ++ [⟨Role.user, s.currentInputTranscription, ts⟩,
              ⟨Role.model, s.currentOutputTranscription, ts⟩]) ∧
    (s.transcriptions.length = 11 →
      (onmessage now ts turnCompleteMsg s).transcriptions
        = s.transcriptions.drop 2
            ++ [⟨Role.user, s.currentInputTranscription, ts⟩,
                ⟨Role.model, s.currentOutputTranscription, ts⟩]) := by
  have e1 : (onmessage now ts turnCompleteMsg s).transcriptions
      = jsSliceLast 11 (s.transcriptions
          ++ [⟨Role.user, s.currentInputTranscription, ts⟩,
              ⟨Role.model, s.currentOutputTranscription, ts⟩]) := by
    simp [onmessage, turnCompleteMsg, hin, hout, pushTranscription_window,
      jsSliceLast_absorb]
  refine ⟨e1, fun hlen => ?_⟩
  have h2 : (s.transcriptions
      ++ [(⟨Role.user, s.currentInputTranscription, ts⟩ : TranscriptionItem),
          ⟨Role.model, s.currentOutputTranscription, ts⟩]).length - 11 = 2 := by
    simp [List.length_append, hlen]
  rw [e1, jsSliceLast, h2, List.drop_append_of_le_length (by rw [hlen]; omega)]

/-- Claim C10, witness: on a concrete full log with both accumulators
non-empty, the two oldest entries are evicted and the two new items land at
the end in user-then-model order. -/
theorem both_roles_turnComplete_witness :
    (onmessage 0 9 turnCompleteMsg fullLogState).transcriptions
      = fullLogState.transcriptions.drop 2
          ++ [⟨Role.user, "hi", 9⟩, ⟨Role.model, "yo", 9⟩] :=
  (both_roles_turnComplete 0 9 fullLogState (by decide) (by decide)).2 (by decide)
